import Mathlib

/-!
Shallow embedding of the AMQP connector in
`src/code/zato-server/src/zato/server/connection/amqp_.py` (module `zato.server.connection.amqp_`),
together with proofs about its registry operations, property-merging publish path,
consumer receive loop, startup verification and connection-string redaction.
-/

set_option autoImplicit false

namespace ZatoAMQP

/-- Python-level values that flow through message properties and keyword arguments:
`None`, strings, integers and booleans. -/
inductive PropValue where
  | vNone
  | vStr (s : String)
  | vInt (n : Int)
  | vBool (b : Bool)
  deriving DecidableEq, Repr

/-- Python truthiness for the values we model: `None` is falsy, a string is truthy iff
non-empty, an integer iff non-zero, a boolean iff `True`. -/
def PropValue.truthy : PropValue → Bool
  | .vNone => false
  | .vStr s => !s.isEmpty
  | .vInt n => n != 0
  | .vBool b => b

/-- Python `x or y`: `x` if truthy, else `y`. -/
def pyOr (x y : PropValue) : PropValue :=
  if x.truthy then x else y

/-- A Python `dict` with string keys, modelled as an insertion-ordered association list
(keys are unique in an actual `dict`). -/
abbrev Dict (α : Type) := List (String × α)

/-- `d[k]` as an `Option`: the first binding of `k`. -/
def dget {α : Type} (d : Dict α) (k : String) : Option α :=
  match d with
  | [] => none
  | p :: rest => if p.1 = k then some p.2 else dget rest k

/-- `k in d`. -/
def dmem {α : Type} (d : Dict α) (k : String) : Bool :=
  (dget d k).isSome

/-- `d[k] = v`: replace the binding of `k` in place, or append a new one. -/
def dset {α : Type} (d : Dict α) (k : String) (v : α) : Dict α :=
  match d with
  | [] => [(k, v)]
  | p :: rest => if p.1 = k then (k, v) :: rest else p :: dset rest k v

/-- Remove every binding of `k` (a real `dict` has at most one). -/
def derase {α : Type} (d : Dict α) (k : String) : Dict α :=
  match d with
  | [] => []
  | p :: rest => if p.1 = k then derase rest k else p :: derase rest k

/-- Python `del d[k]`: `none` models the `KeyError` raised when `k` is absent. -/
def ddel {α : Type} (d : Dict α) (k : String) : Option (Dict α) :=
  if dmem d k then some (derase d k) else none

/-- Python `d.pop(k, dflt)`: the value (or the default) together with the updated dict. -/
def dpop {α : Type} (d : Dict α) (k : String) (dflt : α) : α × Dict α :=
  match dget d k with
  | some v => (v, derase d k)
  | none => (dflt, d)

/-- Python `d.update(other)`: fold every binding of `other` into `d`, `other` winning. -/
def dupdate {α : Type} (d other : Dict α) : Dict α :=
  other.foldl (fun acc p => dset acc p.1 p.2) d

/-- The module-level tuple `_default_out_keys` (line 31 of the source). -/
def _default_out_keys : List String :=
  ["app_id", "content_encoding", "content_type", "delivery_mode", "expiration", "priority", "user_id"]

/-- The configuration of one outgoing AMQP connection, as stored in `self.outconns`.
`old_name` is only meaningful for `edit_outconn` payloads. -/
structure OutconnConfig where
  name : String
  old_name : String := ""
  is_active : Bool
  app_id : PropValue := .vNone
  content_encoding : PropValue := .vNone
  content_type : PropValue := .vNone
  delivery_mode : PropValue := .vNone
  expiration : PropValue := .vNone
  priority : PropValue := .vNone
  user_id : PropValue := .vNone
  deriving DecidableEq, Repr

/-- `outconn_config[key]` for the recognized default-property keys. -/
def OutconnConfig.getProp (c : OutconnConfig) : String → PropValue
  | "app_id" => c.app_id
  | "content_encoding" => c.content_encoding
  | "content_type" => c.content_type
  | "delivery_mode" => c.delivery_mode
  | "expiration" => c.expiration
  | "priority" => c.priority
  | "user_id" => c.user_id
  | _ => .vNone

/-- The connection definition held in `self.config` of the connector. -/
structure ConnectionConfig where
  name : String
  username : String
  password : String
  host : String
  port : Nat
  vhost : String
  frame_max : Nat := 131072
  heartbeat : Nat := 0
  pool_size : Nat := 10
  deriving DecidableEq, Repr

/-- Modelled from the spec: `SECRET_SHADOW`, the fixed redaction token imported from
`zato.common` (that module is not under `src/`); the spec calls it "a fixed redaction
token" whose concrete text is irrelevant to the properties proved here. -/
def SECRET_SHADOW : String := "*****"

/-- `ConnectorAMQP._get_conn_string` (lines 154-156): formats
`amqp://{}:{}@{}:{}{}` from username, password (or the shadow), host, port and vhost. -/
def _get_conn_string (config : ConnectionConfig) (needs_password : Bool) : String :=
  "amqp://" ++ config.username ++ ":" ++
    (if needs_password then config.password else SECRET_SHADOW) ++ "@" ++
    config.host ++ ":" ++ toString config.port ++ config.vhost

/-- `ConnectorAMQP.get_log_details` (lines 160-161): the redacted connection string. -/
def get_log_details (config : ConnectionConfig) : String :=
  _get_conn_string config false

/-- The outbound-connection registry `self.outconns`: a dict keyed by connection name. -/
abbrev Registry := Dict OutconnConfig

/-- `ConnectorAMQP.create_outconn` (lines 165-167): `self.outconns[config.name] = config`. -/
def create_outconn (outconns : Registry) (config : OutconnConfig) : Registry :=
  dset outconns config.name config

/-- `ConnectorAMQP.edit_outconn` (lines 169-172): `del self.outconns[config.old_name]`
then `self.outconns[config.name] = config`; `none` models the `KeyError` when
`old_name` is absent. -/
def edit_outconn (outconns : Registry) (config : OutconnConfig) : Option Registry :=
  (ddel outconns config.old_name).map (fun d => dset d config.name config)

/-- `ConnectorAMQP.delete_outconn` (lines 174-176): `del self.outconns[config.name]`;
`none` models the `KeyError` when the name is absent. -/
def delete_outconn (outconns : Registry) (config : OutconnConfig) : Option Registry :=
  ddel outconns config.name

/-- Identities of the connection objects the connector touches: the verification
connection `self.conn` built in `_start`, a channel handed out by the producer pool,
or the fresh connection a consumer opens in `_create_consumer` (line 123). -/
inductive ConnRef where
  | verification
  | pooled (n : Nat)
  | consumerConn (n : Nat)
  deriving DecidableEq, Repr

/-- Modelled from the spec: acquiring from the Producer Pool ("a bounded pool of
reusable publish channels keyed by live connection") yields a pooled publish channel;
the pool library itself (kombu `pools.Producers`) is not under `src/`. The pool is
keyed by the connector's template connection but hands out its own channels. -/
def poolAcquireConn (n : Nat) : ConnRef := .pooled n

/-- `ConnectorAMQP._create_consumer` (line 123) opens a brand-new connection
(`self._AMQPConnection(self._get_conn_string())`) for the consumer it starts. -/
def _create_consumer_conn (n : Nat) : ConnRef := .consumerConn n

/-- The observable steps of `ConnectorAMQP._start` (lines 91-106), in program order:
build and connect `self.conn`, record `self.conn.connected` into `self.is_connected`,
close `self.conn`, then initialize `self._consumers`, `self._producers` and
`self._queue_name_to_consumer`. -/
inductive StartAction where
  | openConn (c : ConnRef)
  | confirmConnected (c : ConnRef)
  | closeConn (c : ConnRef)
  | initConsumersList
  | initProducersList
  | initQueueMap
  deriving DecidableEq, Repr

/-- The action trace of `_start` (lines 91-106). -/
def startSteps : List StartAction :=
  [.openConn .verification, .confirmConnected .verification, .closeConn .verification,
   .initConsumersList, .initProducersList, .initQueueMap]

/-- The observable steps of `ConnectorAMQP.invoke` (lines 180-211): the registry
lookup, the two failure modes (`KeyError` on an unknown name, `Inactive` on a
disabled connection), the producer-pool acquisition with the block flag and timeout
actually passed to `acquire`, and the final `producer.publish` call with the merged
keyword arguments. -/
inductive Action where
  | registryLookup (name : String)
  | raiseLookupError (name : String)
  | raiseInactive (msg : String)
  | poolAcquire (block timeout : PropValue)
  | publishMsg (msg : String) (headers : Option (Dict PropValue)) (kwargs : Dict PropValue)
      (conn : ConnRef)
  deriving DecidableEq, Repr

/-- The `for key in _default_out_keys` loop of `invoke` (lines 199-204):
`kwargs[key] = properties.pop(key, None) or outconn_config[key] or None`.
Returns the updated kwargs dict together with what is left of `properties`. -/
def mergeProps (conf : OutconnConfig) (props kwargs : Dict PropValue) :
    List String → Dict PropValue × Dict PropValue
  | [] => (kwargs, props)
  | k :: rest =>
      let popped := dpop props k .vNone
      mergeProps conf popped.2 (dset kwargs k (pyOr (pyOr popped.1 (conf.getProp k)) .vNone)) rest

/-- What one call to `invoke` does: its trace of observable actions and the final
contents of the caller-supplied `properties` mapping (which `invoke` pops keys from
in place). -/
structure InvokeResult where
  trace : List Action
  propsAfter : Dict PropValue
  deriving DecidableEq, Repr

/-- `ConnectorAMQP.invoke` (lines 180-211). Arguments mirror the source signature:
`out_name`, `msg`, `exchange` (source default `/`), `routing_key`, `properties`,
`headers`, and the remaining `**kwargs` dict. Note that line 192 of the source reads
`acquire_timeout = kwargs.pop('acquire_block', None)`: it pops the key
`'acquire_block'` a second time, so the caller's `acquire_timeout` entry is never
read and the timeout handed to `acquire` is always `None`. -/
def invoke (outconns : Registry) (connConfig : ConnectionConfig) (out_name msg : String)
    (exchange : String) (routing_key : PropValue) (properties : Option (Dict PropValue))
    (headers : Option (Dict PropValue)) (kwargs0 : Dict PropValue) : InvokeResult :=
  match dget outconns out_name with
  | none => ⟨[.registryLookup out_name, .raiseLookupError out_name], properties.getD []⟩
  | some outconn_config =>
    if outconn_config.is_active then
      let ab := dpop kwargs0 "acquire_block" (.vBool true)
      let at' := dpop ab.2 "acquire_block" .vNone
      let props0 := properties.getD []
      let kw0 : Dict PropValue := [("exchange", .vStr exchange), ("routing_key", routing_key)]
      let merged := mergeProps outconn_config props0 kw0 _default_out_keys
      let kw2 := if merged.2.isEmpty then merged.1 else dupdate merged.1 merged.2
      ⟨[.registryLookup out_name,
        .poolAcquire ab.1 at'.1,
        .publishMsg msg headers kw2 (poolAcquireConn 0)],
       merged.2⟩
    else
      ⟨[.registryLookup out_name,
        .raiseInactive ("Connection is inactive `" ++ out_name ++ "` (" ++
          _get_conn_string connConfig false ++ ")")],
       properties.getD []⟩

/-- The keyword arguments of the `publish` action of a trace, when one occurs. -/
def publishedKwargs : List Action → Option (Dict PropValue)
  | [] => none
  | .publishMsg _ _ kw _ :: _ => some kw
  | _ :: rest => publishedKwargs rest

/-- The effective value of one recognized property key, in the words of the spec:
the caller-supplied value if present and truthy, else the stored default if truthy,
else unset (`None`); an empty string anywhere counts as not provided. -/
def specEffectiveValue (caller : Option PropValue) (dflt : PropValue) : PropValue :=
  match caller with
  | some v => if v.truthy then v else if dflt.truthy then dflt else .vNone
  | none => if dflt.truthy then dflt else .vNone

/-- One iteration's worth of outside input to `Consumer.start` (lines 50-54): what
`drain_events(timeout=2)` does, and, on a connection error, whether the follow-up
`heartbeat_check()` succeeds or itself raises. -/
inductive DrainEvent where
  | drained
  | connError (heartbeatOk : Bool)
  | otherExn
  deriving DecidableEq, Repr

/-- How the `while self.keep_running` loop (lines 50-54) stands after consuming a
finite script: still iterating, exited because the flag was cleared, or exited
because an exception escaped the loop body. -/
inductive LoopStatus where
  | running
  | exitedFlag
  | exitedExn
  deriving DecidableEq, Repr

/-- The receive loop of `Consumer.start` (lines 50-54) run on a finite script: each
entry is the `keep_running` flag observed at the top of the iteration paired with the
drain outcome for that iteration. A connection error from drain leads to
`heartbeat_check()`: if that succeeds the loop continues, if it raises the exception
escapes; any other exception escapes directly. -/
def runLoop : List (Bool × DrainEvent) → LoopStatus
  | [] => .running
  | (keepRunning, ev) :: rest =>
      if keepRunning then
        match ev with
        | .drained => runLoop rest
        | .connError true => runLoop rest
        | .connError false => .exitedExn
        | .otherExn => .exitedExn
      else .exitedFlag

/-- What `Consumer.start` (lines 45-57) reports to its caller. -/
inductive StartOutcome where
  | returnedNormally
  | warningLogged
  deriving DecidableEq, Repr

/-- A Python call observed from outside: it returns a value or an exception
propagates to the caller. -/
inductive PyResult (α : Type) where
  | ok (a : α)
  | exn
  deriving DecidableEq, Repr

/-- `Consumer.start` (lines 45-57): the loop body runs inside `try`, and the
`except Exception` handler logs the traceback at warning level (`logger.warn`)
instead of re-raising. `none` when the script ends with the loop still iterating. -/
def consumerStart (script : List (Bool × DrainEvent)) : Option (PyResult StartOutcome) :=
  match runLoop script with
  | .running => none
  | .exitedFlag => some (.ok .returnedNormally)
  | .exitedExn => some (.ok .warningLogged)

/-- Erase a list of keys from a dict, left to right. -/
def eraseKeys {α : Type} (d : Dict α) : List String → Dict α
  | [] => d
  | k :: rest => eraseKeys (derase d k) rest

/-- The keyword-argument dict that the success path of `invoke` hands to
`producer.publish`: the merge loop's result, with any leftover caller properties
folded in by `kwargs.update(properties)` when some are left. -/
def builtKwargs (cfg : OutconnConfig) (exchange : String) (routing_key : PropValue)
    (props : Dict PropValue) : Dict PropValue :=
  let merged := mergeProps cfg props
    [("exchange", .vStr exchange), ("routing_key", routing_key)] _default_out_keys
  if merged.2.isEmpty then merged.1 else dupdate merged.1 merged.2

/-- A concrete connection definition, used to instantiate witnesses. -/
def ccW : ConnectionConfig where
  name := "amqp1"
  username := "zato"
  password := "secret"
  host := "localhost"
  port := 5672
  vhost := "/"

/-- The spec scenario's `crm-out` entry: active, `user_id = ""`, `priority = 5`. -/
def cfgCrmActive : OutconnConfig where
  name := "crm-out"
  is_active := true
  user_id := PropValue.vStr ""
  priority := PropValue.vInt 5

/-- An active `crm-out` entry with every default-property field unset. -/
def cfgPlainActive : OutconnConfig where
  name := "crm-out"
  is_active := true

/-- An inactive `crm-out` entry. -/
def cfgInactive : OutconnConfig where
  name := "crm-out"
  is_active := false

/-- Caller kwargs carrying both `acquire_block` and `acquire_timeout`. -/
def kwW : Dict PropValue :=
  [("acquire_block", PropValue.vBool true), ("acquire_timeout", PropValue.vInt 5)]

/-- An edit payload renaming `crm-out` to `crm-out-2`. -/
def cfgRenamed : OutconnConfig :=
  { cfgPlainActive with name := "crm-out-2", old_name := "crm-out" }

/-! ### Dictionary lemmas -/

theorem dget_dset_self {α : Type} (d : Dict α) (k : String) (v : α) :
    dget (dset d k v) k = some v := by
  induction d with
  | nil => simp [dset, dget]
  | cons p rest ih =>
      by_cases h : p.1 = k
      · simp [dset, h, dget]
      · simp [dset, h, dget, ih]

theorem dget_dset_ne {α : Type} (d : Dict α) (k k' : String) (v : α) (h : k' ≠ k) :
    dget (dset d k v) k' = dget d k' := by
  induction d with
  | nil => simp [dset, dget, Ne.symm h]
  | cons p rest ih =>
      by_cases hp : p.1 = k
      · subst hp
        simp [dset, dget, Ne.symm h]
      · simp [dset, hp, dget, ih]

theorem dget_derase_self {α : Type} (d : Dict α) (k : String) :
    dget (derase d k) k = none := by
  induction d with
  | nil => simp [derase, dget]
  | cons p rest ih =>
      by_cases h : p.1 = k
      · simp [derase, h, ih]
      · simp [derase, h, dget, ih]

theorem dget_derase_ne {α : Type} (d : Dict α) (k k' : String) (h : k' ≠ k) :
    dget (derase d k) k' = dget d k' := by
  induction d with
  | nil => simp [derase]
  | cons p rest ih =>
      by_cases hp : p.1 = k
      · subst hp
        simp [derase, dget, Ne.symm h, ih]
      · simp [derase, hp, dget, ih]

theorem derase_of_dget_none {α : Type} (d : Dict α) (k : String) (h : dget d k = none) :
    derase d k = d := by
  induction d with
  | nil => simp [derase]
  | cons p rest ih =>
      by_cases hp : p.1 = k
      · simp [dget, hp] at h
      · simp [dget, hp] at h
        simp [derase, hp, ih h]

theorem dpop_snd {α : Type} (d : Dict α) (k : String) (dflt : α) :
    (dpop d k dflt).2 = derase d k := by
  cases h : dget d k with
  | none => simp [dpop, h, derase_of_dget_none d k h]
  | some v => simp [dpop, h]

theorem dpop_fst {α : Type} (d : Dict α) (k : String) (dflt : α) :
    (dpop d k dflt).1 = (dget d k).getD dflt := by
  cases h : dget d k with
  | none => simp [dpop, h]
  | some v => simp [dpop, h]

theorem dget_eq_none_of_not_mem_keys {α : Type} (d : Dict α) (k : String)
    (h : k ∉ d.map Prod.fst) : dget d k = none := by
  induction d with
  | nil => simp [dget]
  | cons p rest ih =>
      simp only [List.map_cons, List.mem_cons] at h
      push_neg at h
      simp [dget, Ne.symm h.1, ih h.2]

theorem dget_dupdate_of_none {α : Type} (d o : Dict α) (k : String) (h : dget o k = none) :
    dget (dupdate d o) k = dget d k := by
  induction o generalizing d with
  | nil => simp [dupdate]
  | cons p rest ih =>
      by_cases hp : p.1 = k
      · simp [dget, hp] at h
      · simp [dget, hp] at h
        show dget (dupdate (dset d p.1 p.2) rest) k = dget d k
        rw [ih (dset d p.1 p.2) h, dget_dset_ne _ _ _ _ (fun hh => hp hh.symm)]

theorem dget_dupdate_of_some {α : Type} (d o : Dict α) (k : String) (v : α)
    (hnd : (o.map Prod.fst).Nodup) (h : dget o k = some v) :
    dget (dupdate d o) k = some v := by
  induction o generalizing d with
  | nil => simp [dget] at h
  | cons p rest ih =>
      simp only [List.map_cons, List.nodup_cons] at hnd
      by_cases hp : p.1 = k
      · simp [dget, hp] at h
        subst h
        show dget (dupdate (dset d p.1 p.2) rest) k = some p.2
        have hrest : dget rest k = none := by
          apply dget_eq_none_of_not_mem_keys
          rw [← hp]; exact hnd.1
        rw [dget_dupdate_of_none _ _ _ hrest, ← hp, dget_dset_self]
      · simp [dget, hp] at h
        exact ih (dset d p.1 p.2) hnd.2 h

theorem derase_keys_sublist {α : Type} (d : Dict α) (k : String) :
    ((derase d k).map Prod.fst).Sublist (d.map Prod.fst) := by
  induction d with
  | nil => simp [derase]
  | cons p rest ih =>
      by_cases hp : p.1 = k
      · simp only [derase, hp, if_pos rfl, List.map_cons]
        exact ih.trans (List.sublist_cons_self _ _)
      · simp only [derase, hp, if_neg hp, List.map_cons]
        exact ih.cons₂ _

theorem derase_keys_nodup {α : Type} (d : Dict α) (k : String)
    (h : (d.map Prod.fst).Nodup) : ((derase d k).map Prod.fst).Nodup :=
  h.sublist (derase_keys_sublist d k)

theorem eraseKeys_keys_nodup {α : Type} (d : Dict α) (keys : List String)
    (h : (d.map Prod.fst).Nodup) : ((eraseKeys d keys).map Prod.fst).Nodup := by
  induction keys generalizing d with
  | nil => exact h
  | cons k rest ih => exact ih _ (derase_keys_nodup d k h)

theorem dget_eraseKeys_of_none {α : Type} (d : Dict α) (keys : List String) (k : String)
    (h : dget d k = none) : dget (eraseKeys d keys) k = none := by
  induction keys generalizing d with
  | nil => exact h
  | cons k1 rest ih =>
      apply ih
      by_cases hk : k = k1
      · subst hk; exact dget_derase_self d k
      · rw [dget_derase_ne d k1 k hk]; exact h

theorem dget_eraseKeys_of_mem {α : Type} (d : Dict α) (keys : List String) (k : String)
    (h : k ∈ keys) : dget (eraseKeys d keys) k = none := by
  induction keys generalizing d with
  | nil => simp at h
  | cons k1 rest ih =>
      by_cases hk : k = k1
      · subst hk
        exact dget_eraseKeys_of_none (derase d k) rest k (dget_derase_self d k)
      · rcases List.mem_cons.mp h with h1 | h2
        · exact absurd h1 hk
        · exact ih (derase d k1) h2

theorem dget_eraseKeys_of_not_mem {α : Type} (d : Dict α) (keys : List String) (k : String)
    (h : k ∉ keys) : dget (eraseKeys d keys) k = dget d k := by
  induction keys generalizing d with
  | nil => rfl
  | cons k1 rest ih =>
      simp only [List.mem_cons] at h
      push_neg at h
      show dget (eraseKeys (derase d k1) rest) k = dget d k
      rw [ih (derase d k1) h.2, dget_derase_ne d k1 k h.1]

/-! ### Property-merge lemmas -/

theorem mergeProps_snd (conf : OutconnConfig) (props kwargs : Dict PropValue)
    (keys : List String) : (mergeProps conf props kwargs keys).2 = eraseKeys props keys := by
  induction keys generalizing props kwargs with
  | nil => rfl
  | cons k rest ih =>
      show (mergeProps conf (dpop props k .vNone).2 _ rest).2 = _
      rw [dpop_snd]
      exact ih _ _

theorem mergeProps_fst_of_not_mem (conf : OutconnConfig) (props kwargs : Dict PropValue)
    (keys : List String) (key : String) (h : key ∉ keys) :
    dget (mergeProps conf props kwargs keys).1 key = dget kwargs key := by
  induction keys generalizing props kwargs with
  | nil => rfl
  | cons k rest ih =>
      simp only [List.mem_cons] at h
      push_neg at h
      show dget (mergeProps conf _ (dset kwargs k _) rest).1 key = _
      rw [ih _ _ h.2, dget_dset_ne _ _ _ _ h.1]

theorem mergeProps_fst_of_mem (conf : OutconnConfig) (props kwargs : Dict PropValue)
    (keys : List String) (key : String) (hnd : keys.Nodup) (h : key ∈ keys) :
    dget (mergeProps conf props kwargs keys).1 key =
      some (pyOr (pyOr ((dget props key).getD .vNone) (conf.getProp key)) .vNone) := by
  induction keys generalizing props kwargs with
  | nil => simp at h
  | cons k rest ih =>
      rw [List.nodup_cons] at hnd
      by_cases hk : key = k
      · subst hk
        show dget (mergeProps conf _ (dset kwargs key _) rest).1 key = _
        rw [mergeProps_fst_of_not_mem _ _ _ _ _ hnd.1, dget_dset_self, dpop_fst]
      · rcases List.mem_cons.mp h with h1 | h2
        · exact absurd h1 hk
        · show dget (mergeProps conf (dpop props k .vNone).2 _ rest).1 key = _
          rw [dpop_snd]
          rw [ih _ _ hnd.2 h2, dget_derase_ne _ _ _ hk]

theorem truthy_vNone : PropValue.truthy .vNone = false := rfl

theorem specEffectiveValue_eq_pyOr (c : Option PropValue) (d : PropValue) :
    pyOr (pyOr (c.getD .vNone) d) .vNone = specEffectiveValue c d := by
  cases c with
  | none => simp [specEffectiveValue, pyOr, truthy_vNone]
  | some v =>
      by_cases hv : v.truthy <;> simp [specEffectiveValue, pyOr, hv]

/-! ### Unfolding lemmas for `invoke` -/

theorem invoke_active (reg : Registry) (cc : ConnectionConfig) (out_name msg exchange : String)
    (routing_key : PropValue) (properties headers : Option (Dict PropValue))
    (kwargs0 : Dict PropValue) (cfg : OutconnConfig)
    (hlook : dget reg out_name = some cfg) (hact : cfg.is_active = true) :
    invoke reg cc out_name msg exchange routing_key properties headers kwargs0 =
      ⟨[.registryLookup out_name,
        .poolAcquire ((dget kwargs0 "acquire_block").getD (.vBool true)) .vNone,
        .publishMsg msg headers (builtKwargs cfg exchange routing_key (properties.getD []))
          (poolAcquireConn 0)],
       eraseKeys (properties.getD []) _default_out_keys⟩ := by
  unfold invoke
  rw [hlook]
  simp only [hact, if_true, builtKwargs, dpop_fst, dpop_snd, dget_derase_self,
    Option.getD_none, mergeProps_snd]

theorem invoke_inactive (reg : Registry) (cc : ConnectionConfig) (out_name msg exchange : String)
    (routing_key : PropValue) (properties headers : Option (Dict PropValue))
    (kwargs0 : Dict PropValue) (cfg : OutconnConfig)
    (hlook : dget reg out_name = some cfg) (hact : cfg.is_active = false) :
    invoke reg cc out_name msg exchange routing_key properties headers kwargs0 =
      ⟨[.registryLookup out_name,
        .raiseInactive ("Connection is inactive `" ++ out_name ++ "` (" ++
          _get_conn_string cc false ++ ")")],
       properties.getD []⟩ := by
  unfold invoke
  rw [hlook]
  simp [hact]

theorem builtKwargs_recognized (cfg : OutconnConfig) (exchange : String)
    (routing_key : PropValue) (props : Dict PropValue) (key : String)
    (hkey : key ∈ _default_out_keys) :
    dget (builtKwargs cfg exchange routing_key props) key =
      some (specEffectiveValue (dget props key) (cfg.getProp key)) := by
  have hnd : _default_out_keys.Nodup := by decide
  have hmerge := mergeProps_fst_of_mem cfg props
    [("exchange", .vStr exchange), ("routing_key", routing_key)] _default_out_keys key hnd hkey
  simp only [builtKwargs, mergeProps_snd]
  by_cases he : (eraseKeys props _default_out_keys).isEmpty = true
  · rw [if_pos he, hmerge, specEffectiveValue_eq_pyOr]
  · rw [if_neg he,
      dget_dupdate_of_none _ _ _ (dget_eraseKeys_of_mem props _default_out_keys key hkey),
      hmerge, specEffectiveValue_eq_pyOr]

theorem builtKwargs_leftover (cfg : OutconnConfig) (exchange : String)
    (routing_key : PropValue) (props : Dict PropValue) (key : String)
    (hnd : (props.map Prod.fst).Nodup)
    (hmem : dmem (eraseKeys props _default_out_keys) key = true) :
    dget (builtKwargs cfg exchange routing_key props) key = dget props key := by
  have hkey : key ∉ _default_out_keys := by
    intro hk
    rw [dmem, dget_eraseKeys_of_mem props _default_out_keys key hk] at hmem
    simp at hmem
  rw [dmem, Option.isSome_iff_exists] at hmem
  obtain ⟨v, hv⟩ := hmem
  have hne : (eraseKeys props _default_out_keys).isEmpty = false := by
    cases hemp : eraseKeys props _default_out_keys with
    | nil => rw [hemp] at hv; simp [dget] at hv
    | cons p rest => simp
  simp only [builtKwargs, mergeProps_snd]
  rw [if_neg (by simp [hne]),
    dget_dupdate_of_some _ _ _ v (eraseKeys_keys_nodup props _default_out_keys hnd) hv,
    ← dget_eraseKeys_of_not_mem props _default_out_keys key hkey, hv]

/-! ### Claim theorems -/

/-- C1: for every call to `invoke` that reaches the publish step and every recognized
property key, the effective published value for that key is the caller-supplied
`properties[key]` when present and truthy, otherwise the registry-stored default for
that key when truthy, otherwise unset; an empty string from either source is falsy and
so counts as not provided. -/
theorem C1_invoke_effective_property_value
    (reg : Registry) (cc : ConnectionConfig) (out_name msg exchange : String)
    (routing_key : PropValue) (properties headers : Option (Dict PropValue))
    (kwargs0 : Dict PropValue) (cfg : OutconnConfig)
    (hlook : dget reg out_name = some cfg) (hact : cfg.is_active = true)
    (key : String) (hkey : key ∈ _default_out_keys) :
    ∃ kw, publishedKwargs (invoke reg cc out_name msg exchange routing_key properties
        headers kwargs0).trace = some kw ∧
      dget kw key =
        some (specEffectiveValue (dget (properties.getD []) key) (cfg.getProp key)) := by
  rw [invoke_active reg cc out_name msg exchange routing_key properties headers kwargs0
    cfg hlook hact]
  exact ⟨_, rfl, builtKwargs_recognized cfg exchange routing_key (properties.getD []) key hkey⟩

/-- Witness for C1 at the spec's scenario: registry entry `crm-out` has
`user_id = ""` and `priority = 5`; the caller passes `properties = {"user_id": "bob"}`;
the published `user_id` is the caller's `"bob"` (and `specEffectiveValue` evaluates the
registry fallback chain). -/
theorem C1_invoke_effective_property_value_witness :
    ∃ kw, publishedKwargs (invoke [("crm-out", cfgCrmActive)] ccW "crm-out" "hello" "/"
        PropValue.vNone (some [("user_id", PropValue.vStr "bob")]) none []).trace = some kw ∧
      dget kw "user_id" =
        some (specEffectiveValue
          (dget ((some [("user_id", PropValue.vStr "bob")]).getD []) "user_id")
          (cfgCrmActive.getProp "user_id")) :=
  C1_invoke_effective_property_value _ _ _ _ _ _ _ _ _ cfgCrmActive
    (by decide) (by decide) _ (by decide)

/-- C2: the timeout value actually handed to the producer-pool acquisition is always
`None`. Line 192 of the source reads `acquire_timeout = kwargs.pop('acquire_block', None)`,
popping `'acquire_block'` a second time instead of `'acquire_timeout'`, so a
caller-supplied `acquire_timeout` never reaches the acquisition (it is silently
discarded when `kwargs` is rebound on line 197). -/
theorem C2_acquire_timeout_never_reaches_pool
    (reg : Registry) (cc : ConnectionConfig) (out_name msg exchange : String)
    (routing_key : PropValue) (properties headers : Option (Dict PropValue))
    (kwargs0 : Dict PropValue) (cfg : OutconnConfig)
    (hlook : dget reg out_name = some cfg) (hact : cfg.is_active = true) :
    Action.poolAcquire ((dget kwargs0 "acquire_block").getD (.vBool true)) .vNone ∈
        (invoke reg cc out_name msg exchange routing_key properties headers kwargs0).trace ∧
    (∀ b t, Action.poolAcquire b t ∈
        (invoke reg cc out_name msg exchange routing_key properties headers kwargs0).trace →
      t = .vNone) := by
  rw [invoke_active reg cc out_name msg exchange routing_key properties headers kwargs0
    cfg hlook hact]
  constructor
  · simp
  · intro b t hmem
    simp only [List.mem_cons, List.mem_singleton] at hmem
    rcases hmem with h | h | h | h <;> simp_all

/-- Witness for C2: the caller passes `acquire_block = True` and `acquire_timeout = 5`;
the acquisition still happens with timeout `None`. -/
theorem C2_acquire_timeout_never_reaches_pool_witness :
    Action.poolAcquire ((dget kwW "acquire_block").getD (.vBool true)) .vNone ∈
      (invoke [("crm-out", cfgPlainActive)] ccW "crm-out" "hello" "/" PropValue.vNone
        none none kwW).trace ∧
    (∀ b t, Action.poolAcquire b t ∈
        (invoke [("crm-out", cfgPlainActive)] ccW "crm-out" "hello" "/" PropValue.vNone
          none none kwW).trace →
      t = .vNone) :=
  C2_acquire_timeout_never_reaches_pool _ _ _ _ _ _ _ _ _ cfgPlainActive
    (by decide) (by decide)

/-- C4: when the resolved config has `is_active = false`, `invoke` performs only the
registry lookup and then raises the `Inactive` error, whose message carries the
redacted connection description; no pool acquisition and no publish occurs. -/
theorem C4_invoke_inactive_raises_before_publish
    (reg : Registry) (cc : ConnectionConfig) (out_name msg exchange : String)
    (routing_key : PropValue) (properties headers : Option (Dict PropValue))
    (kwargs0 : Dict PropValue) (cfg : OutconnConfig)
    (hlook : dget reg out_name = some cfg) (hact : cfg.is_active = false) :
    (invoke reg cc out_name msg exchange routing_key properties headers kwargs0).trace =
      [.registryLookup out_name,
       .raiseInactive ("Connection is inactive `" ++ out_name ++ "` (" ++
         get_log_details cc ++ ")")] ∧
    (∀ a ∈ (invoke reg cc out_name msg exchange routing_key properties headers kwargs0).trace,
      (∀ b t, a ≠ .poolAcquire b t) ∧ (∀ m h kw c, a ≠ .publishMsg m h kw c)) := by
  rw [invoke_inactive reg cc out_name msg exchange routing_key properties headers kwargs0
    cfg hlook hact]
  refine ⟨rfl, ?_⟩
  intro a ha
  simp only [List.mem_cons, List.mem_singleton] at ha
  rcases ha with h | h | h <;> simp_all

/-- Witness for C4 at the spec's scenario: registry `{"crm-out": {is_active: false}}`;
`invoke("crm-out", "hello")` raises the inactive error and records no publish. -/
theorem C4_invoke_inactive_raises_before_publish_witness :
    (invoke [("crm-out", cfgInactive)] ccW "crm-out" "hello" "/" PropValue.vNone
        none none []).trace =
      [.registryLookup "crm-out",
       .raiseInactive ("Connection is inactive `" ++ "crm-out" ++ "` (" ++
         get_log_details ccW ++ ")")] ∧
    (∀ a ∈ (invoke [("crm-out", cfgInactive)] ccW "crm-out" "hello" "/" PropValue.vNone
        none none []).trace,
      (∀ b t, a ≠ .poolAcquire b t) ∧ (∀ m h kw c, a ≠ .publishMsg m h kw c)) :=
  C4_invoke_inactive_raises_before_publish _ _ _ _ _ _ _ _ _ cfgInactive
    (by decide) (by decide)

/-- C3 counterexample: registry default `user_id = ""`, no caller value; the key
`user_id` is not omitted from the property set passed to `publish`: it appears there,
bound to `None`. (The claim asserts membership would be `false`.) -/
theorem C3_counterexample_unset_key_still_passed :
    (publishedKwargs (invoke [("crm-out", cfgCrmActive)] ccW "crm-out" "hello" "/"
        PropValue.vNone none none []).trace).map
      (fun kw => (dmem kw "user_id", dget kw "user_id")) =
      some (true, some PropValue.vNone) := by decide

/-- C3 amended: when the caller value for a recognized key is absent or empty and the
registry default is also absent or empty, the key is still present in the property set
passed to `publish`, explicitly bound to `None` (unset) — the broker-level property is
thereby absent, but the key is not omitted from the keyword set. -/
theorem C3_amended_both_empty_key_bound_to_none
    (reg : Registry) (cc : ConnectionConfig) (out_name msg exchange : String)
    (routing_key : PropValue) (properties headers : Option (Dict PropValue))
    (kwargs0 : Dict PropValue) (cfg : OutconnConfig)
    (hlook : dget reg out_name = some cfg) (hact : cfg.is_active = true)
    (key : String) (hkey : key ∈ _default_out_keys)
    (hcaller : ∀ v, dget (properties.getD []) key = some v → v.truthy = false)
    (hdflt : (cfg.getProp key).truthy = false) :
    ∃ kw, publishedKwargs (invoke reg cc out_name msg exchange routing_key properties
        headers kwargs0).trace = some kw ∧
      dget kw key = some PropValue.vNone := by
  rw [invoke_active reg cc out_name msg exchange routing_key properties headers kwargs0
    cfg hlook hact]
  refine ⟨_, rfl, ?_⟩
  rw [builtKwargs_recognized cfg exchange routing_key (properties.getD []) key hkey]
  cases hc : dget (properties.getD []) key with
  | none => simp [specEffectiveValue, hdflt]
  | some v => simp [specEffectiveValue, hcaller v hc, hdflt]

/-- Witness for the amended C3: caller passes `user_id = ""`, registry default for
`user_id` is also `""`; the published keyword set binds `user_id` to `None`. -/
theorem C3_amended_both_empty_key_bound_to_none_witness :
    ∃ kw, publishedKwargs (invoke [("crm-out", cfgCrmActive)] ccW "crm-out" "hello" "/"
        PropValue.vNone (some [("user_id", PropValue.vStr "")]) none []).trace = some kw ∧
      dget kw "user_id" = some PropValue.vNone :=
  C3_amended_both_empty_key_bound_to_none _ _ _ _ _ _ _ _ _ cfgCrmActive
    (by decide) (by decide) _ (by decide) (by decide) (by decide)

/-- C5 counterexample: with `crm-out` already present, `create_outconn` with a config
of the same name neither fails nor surfaces an error — it silently replaces the
existing (different) entry. -/
theorem C5_counterexample_create_outconn_silent_replace :
    create_outconn [("crm-out", cfgPlainActive)] cfgInactive =
      [("crm-out", cfgInactive)] ∧
    cfgInactive ≠ cfgPlainActive ∧
    dget (create_outconn [("crm-out", cfgPlainActive)] cfgInactive) "crm-out" =
      some cfgInactive := by decide

/-- C5 amended: when an entry already exists under `config.name`, `create_outconn`
silently overwrites it with `config` (the operation is total: no failure, no surfaced
error). -/
theorem C5_amended_create_outconn_overwrites
    (reg : Registry) (cfg old : OutconnConfig) (_hmem : dget reg cfg.name = some old) :
    dget (create_outconn reg cfg) cfg.name = some cfg :=
  dget_dset_self reg cfg.name cfg

/-- Witness for the amended C5: overwriting the existing `crm-out` entry. -/
theorem C5_amended_create_outconn_overwrites_witness :
    dget (create_outconn [("crm-out", cfgPlainActive)] cfgInactive) cfgInactive.name =
      some cfgInactive :=
  C5_amended_create_outconn_overwrites _ cfgInactive cfgPlainActive (by decide)

/-- C6: for distinct names, `edit_outconn` with `old_name = A`, `name = B` on a
registry containing `A` succeeds, removes the entry under `A` and inserts the new
config under `B`. -/
theorem C6_edit_outconn_renames (reg : Registry) (cfg old : OutconnConfig)
    (hA : dget reg cfg.old_name = some old) (hne : cfg.old_name ≠ cfg.name) :
    ∃ reg2, edit_outconn reg cfg = some reg2 ∧
      dget reg2 cfg.old_name = none ∧ dget reg2 cfg.name = some cfg := by
  have hmem : dmem reg cfg.old_name = true := by
    rw [dmem, hA]; rfl
  refine ⟨dset (derase reg cfg.old_name) cfg.name cfg, ?_, ?_, ?_⟩
  · rw [edit_outconn, ddel, if_pos hmem]
    rfl
  · rw [dget_dset_ne _ _ _ _ hne, dget_derase_self]
  · exact dget_dset_self _ _ _

/-- Witness for C6: renaming `crm-out` (entry present) to `crm-out-2`. -/
theorem C6_edit_outconn_renames_witness :
    ∃ reg2, edit_outconn [("crm-out", cfgPlainActive)] cfgRenamed = some reg2 ∧
      dget reg2 cfgRenamed.old_name = none ∧
      dget reg2 cfgRenamed.name = some cfgRenamed :=
  C6_edit_outconn_renames _ _ cfgPlainActive (by decide) (by decide)

/-- C7: while the keep-running flag is set, a connection-level error from the drain
call (with a succeeding heartbeat check, as for a transient drain timeout) never by
itself ends the receive loop; the loop ends only when the flag is cleared or when the
heartbeat check (or another exception) raises; and an exception that ends the loop is
absorbed by `start`'s handler (logged at warning level) — `start` never lets it
propagate to the hosting process. -/
theorem C7_consumer_loop_survives_drain_errors (script : List (Bool × DrainEvent)) :
    ((∀ p ∈ script, p.1 = true ∧ (p.2 = .drained ∨ p.2 = .connError true)) →
        runLoop script = .running) ∧
    (runLoop script = .exitedExn →
        ∃ p ∈ script, p.2 = .connError false ∨ p.2 = .otherExn) ∧
    (∀ r, consumerStart script = some r → r ≠ .exn) := by
  refine ⟨?_, ?_, ?_⟩
  · intro h
    induction script with
    | nil => rfl
    | cons p rest ih =>
        obtain ⟨hflag, hev⟩ := h p (List.mem_cons_self p rest)
        have hrest := fun q hq => h q (List.mem_cons_of_mem p hq)
        cases p with
        | mk b ev =>
            simp only at hflag
            subst hflag
            rcases hev with hev | hev <;> simp only at hev <;> subst hev <;>
              simpa [runLoop] using ih hrest
  · intro h
    induction script with
    | nil => simp [runLoop] at h
    | cons p rest ih =>
        cases p with
        | mk b ev =>
            cases b with
            | false => simp [runLoop] at h
            | true =>
                cases ev with
                | drained =>
                    obtain ⟨q, hq, hqe⟩ := ih (by simpa [runLoop] using h)
                    exact ⟨q, List.mem_cons_of_mem _ hq, hqe⟩
                | connError hb =>
                    cases hb with
                    | true =>
                        obtain ⟨q, hq, hqe⟩ := ih (by simpa [runLoop] using h)
                        exact ⟨q, List.mem_cons_of_mem _ hq, hqe⟩
                    | false => exact ⟨(true, .connError false), List.mem_cons_self _ _,
                        Or.inl rfl⟩
                | otherExn => exact ⟨(true, .otherExn), List.mem_cons_self _ _, Or.inr rfl⟩
  · intro r hr
    cases h : runLoop script <;> simp [consumerStart, h] at hr <;> simp [← hr]

/-- Witness for C7 at the spec's scenario: the drain call times out (a connection
error with a succeeding heartbeat check) twice consecutively with the flag set; the
loop is still running afterwards. -/
theorem C7_consumer_loop_survives_drain_errors_witness :
    runLoop [(true, .connError true), (true, .connError true)] = .running :=
  (C7_consumer_loop_survives_drain_errors
    [(true, .connError true), (true, .connError true)]).1 (by decide)

/-- C8: during `_start` the verification connection is opened, confirmed connected and
closed, in that order and with nothing in between, before the consumer and producer
structures are initialized; and no traffic-carrying step uses it: every publish in
`invoke` goes through a channel acquired from the producer pool, and every consumer
runs on a connection freshly opened by `_create_consumer`. -/
theorem C8_verification_conn_closed_and_never_reused :
    (startSteps.take 3 = [.openConn .verification, .confirmConnected .verification,
        .closeConn .verification] ∧
     StartAction.initConsumersList ∈ startSteps.drop 3 ∧
     StartAction.initProducersList ∈ startSteps.drop 3) ∧
    (∀ (reg : Registry) (cc : ConnectionConfig) (out_name msg exchange : String)
        (routing_key : PropValue) (properties headers : Option (Dict PropValue))
        (kwargs0 : Dict PropValue) (m : String) (h : Option (Dict PropValue))
        (kw : Dict PropValue) (c : ConnRef),
      Action.publishMsg m h kw c ∈ (invoke reg cc out_name msg exchange routing_key
        properties headers kwargs0).trace → c ≠ .verification) ∧
    (∀ n, _create_consumer_conn n ≠ .verification) ∧
    (∀ n, poolAcquireConn n ≠ .verification) := by
  refine ⟨by decide, ?_, fun n => by simp [_create_consumer_conn],
    fun n => by simp [poolAcquireConn]⟩
  intro reg cc out_name msg exchange routing_key properties headers kwargs0 m h kw c hmem
  cases hlook : dget reg out_name with
  | none =>
      unfold invoke at hmem
      rw [hlook] at hmem
      simp at hmem
  | some cfg =>
      cases hact : cfg.is_active with
      | false =>
          rw [invoke_inactive reg cc out_name msg exchange routing_key properties headers
            kwargs0 cfg hlook hact] at hmem
          simp at hmem
      | true =>
          rw [invoke_active reg cc out_name msg exchange routing_key properties headers
            kwargs0 cfg hlook hact] at hmem
          simp only [List.mem_cons, List.mem_singleton] at hmem
          rcases hmem with hmem | hmem | hmem | hmem <;> simp_all [poolAcquireConn]

/-- Witness for C8: a concrete publish goes via the pooled channel, not the
verification connection. -/
theorem C8_verification_conn_closed_and_never_reused_witness :
    ConnRef.pooled 0 ≠ ConnRef.verification :=
  C8_verification_conn_closed_and_never_reused.2.1
    [("crm-out", cfgPlainActive)] ccW "crm-out" "hello" "/" PropValue.vNone none none []
    "hello" none
    [("exchange", PropValue.vStr "/"), ("routing_key", PropValue.vNone),
     ("app_id", PropValue.vNone), ("content_encoding", PropValue.vNone),
     ("content_type", PropValue.vNone), ("delivery_mode", PropValue.vNone),
     ("expiration", PropValue.vNone), ("priority", PropValue.vNone),
     ("user_id", PropValue.vNone)]
    (ConnRef.pooled 0) (by decide)

/-- C9: the redacted connection description returned by `get_log_details` equals the
full description with the password field replaced by the fixed redaction token, and it
is independent of the stored password: configurations differing only in password
produce identical redacted descriptions. -/
theorem C9_redacted_description_password_independent (c : ConnectionConfig) (p : String) :
    get_log_details c = _get_conn_string { c with password := SECRET_SHADOW } true ∧
    get_log_details { c with password := p } = get_log_details c := by
  exact ⟨rfl, rfl⟩

/-- C10: a successful `invoke` pops every recognized key out of the caller's
`properties` mapping while leaving unrecognized keys in place, and whatever is left of
the mapping (exactly the unrecognized entries) is merged verbatim into the published
property set. -/
theorem C10_invoke_consumes_recognized_caller_properties
    (reg : Registry) (cc : ConnectionConfig) (out_name msg exchange : String)
    (routing_key : PropValue) (props : Dict PropValue) (headers : Option (Dict PropValue))
    (kwargs0 : Dict PropValue) (cfg : OutconnConfig)
    (hlook : dget reg out_name = some cfg) (hact : cfg.is_active = true)
    (hnd : (props.map Prod.fst).Nodup) :
    (∀ key ∈ _default_out_keys,
      dget (invoke reg cc out_name msg exchange routing_key (some props) headers
        kwargs0).propsAfter key = none) ∧
    (∀ key, key ∉ _default_out_keys →
      dget (invoke reg cc out_name msg exchange routing_key (some props) headers
        kwargs0).propsAfter key = dget props key) ∧
    (∃ kw, publishedKwargs (invoke reg cc out_name msg exchange routing_key (some props)
        headers kwargs0).trace = some kw ∧
      ∀ key, dmem (invoke reg cc out_name msg exchange routing_key (some props) headers
        kwargs0).propsAfter key = true → dget kw key = dget props key) := by
  rw [invoke_active reg cc out_name msg exchange routing_key (some props) headers kwargs0
    cfg hlook hact]
  simp only [Option.getD_some]
  refine ⟨?_, ?_, ?_⟩
  · intro key hk
    exact dget_eraseKeys_of_mem props _default_out_keys key hk
  · intro key hk
    exact dget_eraseKeys_of_not_mem props _default_out_keys key hk
  · exact ⟨_, rfl, fun key hk =>
      builtKwargs_leftover cfg exchange routing_key props key hnd hk⟩

/-- Witness for C10: the caller's mapping holds a recognized key (`user_id`) and an
unrecognized one (`custom`); afterwards `user_id` is gone from it, `custom` remains,
and `custom` is merged verbatim into the published set. -/
theorem C10_invoke_consumes_recognized_caller_properties_witness :
    (∀ key ∈ _default_out_keys,
      dget (invoke [("crm-out", cfgPlainActive)] ccW "crm-out" "hello" "/" PropValue.vNone
        (some [("user_id", PropValue.vStr "bob"), ("custom", PropValue.vInt 7)]) none
        []).propsAfter key = none) ∧
    (∀ key, key ∉ _default_out_keys →
      dget (invoke [("crm-out", cfgPlainActive)] ccW "crm-out" "hello" "/" PropValue.vNone
        (some [("user_id", PropValue.vStr "bob"), ("custom", PropValue.vInt 7)]) none
        []).propsAfter key =
        dget [("user_id", PropValue.vStr "bob"), ("custom", PropValue.vInt 7)] key) ∧
    (∃ kw, publishedKwargs (invoke [("crm-out", cfgPlainActive)] ccW "crm-out" "hello" "/"
        PropValue.vNone (some [("user_id", PropValue.vStr "bob"),
        ("custom", PropValue.vInt 7)]) none []).trace = some kw ∧
      ∀ key, dmem (invoke [("crm-out", cfgPlainActive)] ccW "crm-out" "hello" "/"
          PropValue.vNone (some [("user_id", PropValue.vStr "bob"),
          ("custom", PropValue.vInt 7)]) none []).propsAfter key = true →
        dget kw key =
          dget [("user_id", PropValue.vStr "bob"), ("custom", PropValue.vInt 7)] key) :=
  C10_invoke_consumes_recognized_caller_properties _ _ _ _ _ _ _ _ _ cfgPlainActive
    (by decide) (by decide) (by decide)

end ZatoAMQP
